import Mathlib

/-!
Verification of the stock-dashboard repository (src/app.py and the unnamed
Stock Analyser script, src/unnamed/part_000) against its specification.

Modelling conventions:
- Python floats are modelled as rationals (`ℚ`); all the constants in the
  scoring heuristic are exactly representable, so rational arithmetic agrees
  with the scripts on every value the claims mention.
- A Python value that may be `None` is an `Option`.
- Ticker symbols are opaque identifiers, modelled as naturals.
- External library calls (the yfinance provider, pandas) are modelled at
  their interface: the provider is an explicit environment argument, and the
  pandas calls that the pipeline makes are modelled by their documented
  contracts (see `SortValuesScoreDesc`).
-/

/-- Ticker symbols are opaque identifiers; their string content never matters
to the core logic, so they are modelled as naturals. -/
abbrev Ticker := Nat

/-- The per-symbol facts dictionary built by `fetch_stock_data`
(src/unnamed/part_000, lines 40-49) and by `analyze_stocks`
(src/app.py, lines 113-122), with the keys
`Symbol`, `Price Change %`, `Volume Change %`, `P/E Ratio`,
`Dividend Yield`, `Market Cap`, `Dist from 52W High %`, `Analyst Rec`.
`dividend_yield` and `market_cap` are never `None` (they default to `0`),
the other numeric fields may be. -/
structure MarketFacts where
  symbol : Ticker
  price_change_pct : Option ℚ
  volume_change_pct : Option ℚ
  pe : Option ℚ
  dividend_yield : ℚ
  market_cap : ℚ
  dist_from_52w_high_pct : Option ℚ
  analyst_rec : Option ℚ
deriving DecidableEq

/-- `score_stock` from src/app.py, lines 20-56, translated clause by clause.
`score` starts at `0` and each `if` block adds its contribution in sequence.
The Python guard `if pe and pe > 0` tests truthiness (non-`None` and
non-zero) and then positivity; it is modelled by the matching conjunction. -/
def App.score_stock (stock : MarketFacts) : ℚ :=
  let score : ℚ := 0
  let score :=
    match stock.price_change_pct with
    | none => score
    | some p => score + max (min p 10) (-10) * 3
  let score :=
    match stock.volume_change_pct with
    | none => score
    | some v => score + max (min v 50) (-50) * 0.4
  let score :=
    match stock.pe with
    | none => score
    | some pe =>
      if pe ≠ 0 ∧ 0 < pe then
        if 10 ≤ pe ∧ pe ≤ 25 then score + 10 else score - |pe - 17.5| * 0.5
      else score
  let score :=
    if 1 < stock.dividend_yield then score + min stock.dividend_yield 5 * 2 else score
  let score :=
    match stock.dist_from_52w_high_pct with
    | none => score
    | some dist => if -20 ≤ dist then score + (20 + dist) * 0.5 else score - 10
  let score :=
    match stock.analyst_rec with
    | none => score
    | some r => if r ≤ 2 then score + 10 else if r ≤ 3 then score + 5 else score - 5
  score

/-- `score_stock` from src/unnamed/part_000, lines 51-87, translated clause by
clause (independently of `App.score_stock`; the two Python bodies are compared
in claim C10). -/
def Analyser.score_stock (stock : MarketFacts) : ℚ :=
  let score : ℚ := 0
  let score :=
    match stock.price_change_pct with
    | none => score
    | some p => score + max (min p 10) (-10) * 3
  let score :=
    match stock.volume_change_pct with
    | none => score
    | some v => score + max (min v 50) (-50) * 0.4
  let score :=
    match stock.pe with
    | none => score
    | some pe =>
      if pe ≠ 0 ∧ 0 < pe then
        if 10 ≤ pe ∧ pe ≤ 25 then score + 10 else score - |pe - 17.5| * 0.5
      else score
  let score :=
    if 1 < stock.dividend_yield then score + min stock.dividend_yield 5 * 2 else score
  let score :=
    match stock.dist_from_52w_high_pct with
    | none => score
    | some dist => if -20 ≤ dist then score + (20 + dist) * 0.5 else score - 10
  let score :=
    match stock.analyst_rec with
    | none => score
    | some r => if r ≤ 2 then score + 10 else if r ≤ 3 then score + 5 else score - 5
  score

/-- The contribution of the `Dist from 52W High %` block of `score_stock`
(src/app.py, lines 40-45): a linear bonus `(20 + dist) * 0.5` when
`dist >= -20` and a flat `-10` penalty below `-20`. -/
def fiftyTwoWeekContrib (dist : ℚ) : ℚ :=
  if -20 ≤ dist then (20 + dist) * 0.5 else -10

/-- The concrete facts of the end-to-end scoring example: price change 5,
volume change 20, P/E 18, dividend yield 0, distance from 52-week high -5,
analyst recommendation 1.8. -/
def exampleFacts : MarketFacts :=
  ⟨0, some 5, some 20, some 18, 0, 0, some (-5), some 1.8⟩

/-- Claim C4: on the example facts (price change 5, volume change 20, P/E 18,
dividend yield 0, distance from 52-week high -5, analyst recommendation 1.8)
`score_stock` returns exactly 50.5 = 15 + 8 + 10 + 0 + 7.5 + 10. -/
theorem score_stock_example_eq : App.score_stock exampleFacts = 50.5 := by
  norm_num [App.score_stock, exampleFacts, max_def, min_def]

/-- Claim C10: the `score_stock` of src/app.py and the `score_stock` of
src/unnamed/part_000 compute the same value on every input — the two
implementations are extensionally equal. -/
theorem score_stock_app_eq_analyser :
    ∀ f : MarketFacts, App.score_stock f = Analyser.score_stock f :=
  fun _ => rfl

set_option maxHeartbeats 1000000 in
/-- Claim C5: when `dist_from_52w_high_pct` is present, the 52-week block of
`score_stock` contributes `(20 + dist) * 0.5` for `dist ≥ -20` and a flat
`-10` for `dist < -20`; at the boundary, `dist = -20` contributes `0` while
`dist = -20.0001` contributes `-10` — a step discontinuity. -/
theorem score_stock_fifty_two_week_step :
    (∀ (f : MarketFacts) (d : ℚ), f.dist_from_52w_high_pct = some d →
      App.score_stock f =
        App.score_stock { f with dist_from_52w_high_pct := none } +
          fiftyTwoWeekContrib d) ∧
    fiftyTwoWeekContrib (-20) = 0 ∧ fiftyTwoWeekContrib (-20.0001) = -10 := by
  refine ⟨?_, by norm_num [fiftyTwoWeekContrib], by norm_num [fiftyTwoWeekContrib]⟩
  rintro ⟨s, p, v, pe, dy, mc, dist, r⟩ d hd
  simp only at hd
  subst hd
  cases p <;> cases v <;> cases pe <;> cases r <;>
    (dsimp only [App.score_stock, fiftyTwoWeekContrib]; split_ifs <;> ring)

/-- Witness for claim C5 at a concrete input: the facts of the end-to-end
example have `dist_from_52w_high_pct = some (-5)`, and the decomposition
holds there with contribution `7.5`. -/
theorem score_stock_fifty_two_week_step_witness :
    App.score_stock exampleFacts =
      App.score_stock { exampleFacts with dist_from_52w_high_pct := none } +
        fiftyTwoWeekContrib (-5) :=
  score_stock_fifty_two_week_step.1 exampleFacts (-5) rfl

/-- The fundamentals mapping returned by `fetch_stock_info` (src/app.py,
lines 58-61) and `ticker.info` (src/unnamed/part_000, line 15), restricted to
the keys the pipeline reads; a missing key is `none`. -/
structure Fundamentals where
  trailingPE : Option ℚ
  dividendYield : Option ℚ
  marketCap : Option ℚ
  fiftyTwoWeekHigh : Option ℚ
  recommendationMean : Option ℚ
deriving DecidableEq

/-- The external market-data provider, as seen by one `analyze_stocks` run:
`batch` is the per-symbol content of the batch download (`none` when the
symbol is absent from `hist_data.columns.levels[0]`), a history row being a
`(Close, Volume)` pair in chronological order; `fundamentals` is the result
of `fetch_stock_info` (`none` when that lookup raises, which the outer
`except` of the per-symbol loop turns into a skip). -/
structure MarketEnv where
  batch : Ticker → Option (List (ℚ × ℚ))
  fundamentals : Ticker → Option Fundamentals

/-- The price/volume-change computation of `analyze_stocks` (src/app.py,
lines 87-97, the inner `try`), also the one in `fetch_stock_data`
(src/unnamed/part_000, lines 20-26): from the last two rows of the history
window it returns `(price_change_pct, vol_change_pct, last_close)`.
The price division is unguarded in the source; the zero-previous-close case
is modelled as the error branch (`none`, line 95-97: the symbol is skipped).
The volume division carries an explicit zero guard. -/
def computeChanges (hist : List (ℚ × ℚ)) : Option (ℚ × ℚ × ℚ) :=
  match hist[hist.length - 2]?, hist[hist.length - 1]? with
  | some prev, some lastRow =>
    if prev.1 = 0 then none
    else
      some (((lastRow.1 - prev.1) / prev.1) * 100,
        if prev.2 ≠ 0 then ((lastRow.2 - prev.2) / prev.2) * 100 else 0,
        lastRow.1)
  | _, _ => none

/-- A row of the ranked table: the facts dictionary after `analyze_stocks`
adds the `Score` key (src/app.py, line 124). -/
structure ScoredStock where
  facts : MarketFacts
  score : ℚ
deriving DecidableEq

/-- The body of the per-symbol loop of `analyze_stocks` (src/app.py,
lines 75-129): `none` is a skipped symbol (missing from the batch result,
fewer than 2 history rows, an error while computing the changes, or an
exception from the fundamentals lookup caught by the outer `except`);
otherwise the scored row appended to `data`. -/
def processSymbol (env : MarketEnv) (symbol : Ticker) : Option ScoredStock :=
  match env.batch symbol with
  | none => none
  | some hist =>
    if hist.length < 2 then none
    else
      match computeChanges hist with
      | none => none
      | some (price_change_pct, vol_change_pct, last_close) =>
        match env.fundamentals symbol with
        | none => none
        | some info =>
          let dividend_yield := info.dividendYield.getD 0
          let market_cap := info.marketCap.getD 0
          let dist_52w_high_pct :=
            match info.fiftyTwoWeekHigh with
            | some high => if high ≠ 0 then some (((last_close - high) / high) * 100) else none
            | none => none
          let stock : MarketFacts :=
            ⟨symbol, some price_change_pct, some vol_change_pct, info.trailingPE,
              dividend_yield * 100, market_cap, dist_52w_high_pct, info.recommendationMean⟩
          some ⟨stock, App.score_stock stock⟩

/-- The error pandas raises when `sort_values` is asked for a column the
frame does not have. -/
inductive PdError where
  | keyError
deriving DecidableEq

/-- Descending order on the `Score` column. -/
def SortedDescByScore (rows : List ScoredStock) : Prop :=
  rows.Chain' fun a b => b.score ≤ a.score

/-- The documented contract of `pd.DataFrame(data)` followed by
`df.sort_values(by='Score', ascending=False)` (src/app.py, lines 131-132).
A frame built from an empty record list has no columns at all, so sorting it
by `Score` raises `KeyError`. Otherwise the result is some permutation of
the rows that is descending in `Score`; the call uses the default
`kind='quicksort'` (numpy introsort), which pandas documents as not stable,
so the order among equal scores is left unconstrained by the contract. -/
def SortValuesScoreDesc (rows : List ScoredStock)
    (res : Except PdError (List ScoredStock)) : Prop :=
  match rows with
  | [] => res = Except.error PdError.keyError
  | _ :: _ => ∃ out, res = Except.ok out ∧ rows.Perm out ∧ SortedDescByScore out

/-- `analyze_stocks` from src/app.py, lines 72-133, relating a run (over a
fixed provider environment) to its result: the per-symbol loop builds `data`
in input order, then the pandas sort produces the ranked table (or raises). -/
def analyze_stocks (env : MarketEnv) (stock_list : List Ticker)
    (res : Except PdError (List ScoredStock)) : Prop :=
  SortValuesScoreDesc (stock_list.filterMap (processSymbol env)) res

/-- `fetch_batch_data` from src/app.py, lines 63-70. The provider is a
stream of attempt outcomes (`none` = `yf.download` raised); on a failure the
function warns, sleeps 60 seconds and retries the whole batch by recursing.
The Python recursion is unbounded; `fuel` only makes the model total and the
theorems quantify over every sufficiently large fuel. The result carries
`(data, total seconds slept, number of warnings emitted)`. -/
def fetch_batch_data {α : Type} (provider : Nat → Option α) :
    Nat → Nat → Option (α × Nat × Nat)
  | 0, _ => none
  | fuel + 1, attempt =>
    match provider attempt with
    | some data => some (data, 0, 0)
    | none =>
      match fetch_batch_data provider fuel (attempt + 1) with
      | none => none
      | some (data, slept, warned) => some (data, slept + 60, warned + 1)

/-- Shifted form of the retry result, proved by induction on the number of
failures before the first success. -/
theorem fetch_batch_data_shift {α : Type} (provider : Nat → Option α) :
    ∀ (k : Nat) (d : α) (start fuel : Nat),
      (∀ j, j < k → provider (start + j) = none) → provider (start + k) = some d →
      k < fuel → fetch_batch_data provider fuel start = some (d, 60 * k, k) := by
  intro k
  induction k with
  | zero =>
    intro d start fuel _ hsucc hfuel
    match fuel, hfuel with
    | fuel + 1, _ =>
      simp only [Nat.add_zero] at hsucc
      simp [fetch_batch_data, hsucc]
  | succ k ih =>
    intro d start fuel hfail hsucc hfuel
    match fuel, hfuel with
    | fuel + 1, hfuel =>
      have h0 : provider start = none := by
        have := hfail 0 (Nat.succ_pos k)
        simpa using this
      have hfail' : ∀ j, j < k → provider (start + 1 + j) = none := by
        intro j hj
        have := hfail (j + 1) (by omega)
        simpa [Nat.add_assoc, Nat.add_comm 1 j] using this
      have hsucc' : provider (start + 1 + k) = some d := by
        have : start + 1 + k = start + (k + 1) := by omega
        rw [this]
        exact hsucc
      have hrec := ih d (start + 1) fuel hfail' hsucc' (by omega)
      simp only [fetch_batch_data, h0, hrec]
      refine congrArg some (congrArg (Prod.mk d) ?_)
      rfl

/-- Claim C9: the batch fetch retries forever with a fixed 60-second backoff
and no attempt cap, and a failure is only ever surfaced as a warning: for any
provider-response stream whose first success comes at attempt `k` (after `k`
failures), `fetch_batch_data` returns that successful result, having slept
`60 * k` seconds and emitted exactly `k` warnings — for every recursion
budget large enough to reach attempt `k`, whatever `k` is. -/
theorem fetch_batch_data_first_success {α : Type} (provider : Nat → Option α)
    (k : Nat) (d : α) (hfail : ∀ j, j < k → provider j = none)
    (hsucc : provider k = some d) :
    ∀ fuel, k < fuel → fetch_batch_data provider fuel 0 = some (d, 60 * k, k) := by
  intro fuel hfuel
  have hfail' : ∀ j, j < k → provider (0 + j) = none := by simpa using hfail
  have hsucc' : provider (0 + k) = some d := by simpa using hsucc
  exact fetch_batch_data_shift provider k d 0 fuel hfail' hsucc' hfuel

/-- Witness for claim C9: a provider that fails twice and then succeeds with
the value `7`; the fetch returns `7` after 120 seconds of backoff and two
warnings. -/
theorem fetch_batch_data_first_success_witness :
    fetch_batch_data (fun n => if n < 2 then none else some 7) 3 0 =
      some (7, 120, 2) := by
  have h := fetch_batch_data_first_success (fun n => if n < 2 then none else some 7)
    2 7 (by intro j hj; simp [hj]) (by norm_num) 3 (by norm_num)
  simpa using h

/-- An environment in which every symbol is skipped: the batch download
result contains no symbol at all. -/
def envAllSkip : MarketEnv :=
  ⟨fun _ => none, fun _ => none⟩

/-- Claim C2 (code bug): when every symbol of the input list is skipped,
`data` is empty, `pd.DataFrame([])` has no `Score` column, and the
`sort_values(by='Score')` call raises `KeyError` instead of returning an
empty ranked table: on the concrete input `[0, 1]` with a batch result that
contains no symbols, every run of `analyze_stocks` ends in `KeyError`. -/
theorem analyze_stocks_all_skipped_key_error :
    [0, 1].filterMap (processSymbol envAllSkip) = [] ∧
    ∀ res, analyze_stocks envAllSkip [0, 1] res ↔
      res = Except.error PdError.keyError :=
  ⟨rfl, fun _ => Iff.rfl⟩

/-- Claim C8: for a history window of at least two observations whose
previous close is non-zero, the extraction computes
`price_change_pct = (last_close - prev_close) / prev_close * 100`, and
`vol_change_pct = (last_vol - prev_vol) / prev_vol * 100` when the previous
volume is non-zero but exactly `0` when the previous volume is zero. -/
theorem computeChanges_formulas (hist : List (ℚ × ℚ)) (prev lastRow : ℚ × ℚ)
    (_h2 : 2 ≤ hist.length)
    (hp : hist[hist.length - 2]? = some prev)
    (hl : hist[hist.length - 1]? = some lastRow)
    (hnz : prev.1 ≠ 0) :
    computeChanges hist =
      some (((lastRow.1 - prev.1) / prev.1) * 100,
        (if prev.2 ≠ 0 then ((lastRow.2 - prev.2) / prev.2) * 100 else 0),
        lastRow.1) ∧
    (prev.2 = 0 →
      computeChanges hist =
        some (((lastRow.1 - prev.1) / prev.1) * 100, 0, lastRow.1)) := by
  constructor
  · simp only [computeChanges, hp, hl]
    simp [hnz]
  · intro h0
    simp only [computeChanges, hp, hl]
    simp [hnz, h0]

/-- Witness for claim C8 on the concrete window `[(1, 2), (3, 4)]`: the
price change is `200` percent and the volume change `100` percent. -/
theorem computeChanges_formulas_witness :
    computeChanges [((1 : ℚ), (2 : ℚ)), (3, 4)] = some (200, 100, 3) := by
  have h := (computeChanges_formulas [((1 : ℚ), (2 : ℚ)), (3, 4)] (1, 2) (3, 4)
    (by norm_num) rfl rfl (by norm_num)).1
  norm_num at h
  exact h

/-- An environment in which every symbol yields the same facts: a two-row
history with constant close `1` and constant volume `1`, and an empty
fundamentals mapping. Every processed symbol then scores exactly `0`. -/
def envTies : MarketEnv :=
  ⟨fun _ => some [(1, 1), (1, 1)], fun _ => some ⟨none, none, none, none, none⟩⟩

/-- The row `processSymbol envTies` produces for a symbol: zero price and
volume change, defaulted fundamentals, score `0`. -/
def tieRow (s : Ticker) : ScoredStock :=
  ⟨⟨s, some 0, some 0, none, 0, 0, none, none⟩, 0⟩

theorem processSymbol_envTies (s : Ticker) :
    processSymbol envTies s = some (tieRow s) := by
  simp only [processSymbol, envTies, computeChanges]
  norm_num [tieRow, App.score_stock, max_def, min_def]

theorem filterMap_envTies (l : List Ticker) :
    l.filterMap (processSymbol envTies) = l.map tieRow := by
  induction l with
  | nil => rfl
  | cons a l ih => simp [processSymbol_envTies, ih]

/-- Seventeen symbols, all of which tie at score `0` under `envTies`; 17 is
the smallest frame size at which numpy introsort leaves the insertion-sort
regime that happens to preserve order. -/
def tieSyms : List Ticker := List.range 17

/-- The same seventeen symbols with the first two exchanged. -/
def tieSymsSwapped : List Ticker := 1 :: 0 :: (List.range 15).map (fun i => i + 2)

theorem tieSyms_eq : tieSyms = 0 :: 1 :: (List.range 15).map (fun i => i + 2) := by
  decide

theorem chain'_of_forall {α : Type} {R : α → α → Prop} (h : ∀ a b, R a b) :
    ∀ l : List α, List.Chain' R l
  | [] => List.chain'_nil
  | [_] => by simp
  | a :: b :: l => List.Chain'.cons (h a b) (chain'_of_forall h (b :: l))

theorem sortedDesc_map_tieRow (xs : List Ticker) :
    SortedDescByScore (xs.map tieRow) := by
  unfold SortedDescByScore
  rw [List.chain'_map]
  exact chain'_of_forall (fun a b => le_refl _) xs

theorem filter_score_zero_map_tieRow (xs : List Ticker) :
    (xs.map tieRow).filter (fun r => decide (r.score = (0 : ℚ))) = xs.map tieRow := by
  induction xs with
  | nil => rfl
  | cons a l ih => simp [tieRow, ih]

/-- Stability on ties: for every score value, the rows carrying that score
appear in the output in the same order as in the input. -/
def StableTies (input output : List ScoredStock) : Prop :=
  ∀ q : ℚ, output.filter (fun r => decide (r.score = q)) =
    input.filter (fun r => decide (r.score = q))

/-- Counterexample to claim C3's stability half: on seventeen symbols that
all tie at score `0`, the sort contract of
`sort_values(by='Score', ascending=False)` with its default unstable
`kind='quicksort'` admits the output with the first two rows exchanged, and
that output does not preserve the input order among equal scores. -/
theorem analyze_stocks_not_stable_on_ties :
    ¬ (∀ res out, analyze_stocks envTies tieSyms res → res = Except.ok out →
        StableTies (tieSyms.filterMap (processSymbol envTies)) out) := by
  intro hclaim
  have hrows : tieSyms.filterMap (processSymbol envTies) = tieSyms.map tieRow :=
    filterMap_envTies tieSyms
  have hpermSyms : tieSyms.Perm tieSymsSwapped := by
    rw [tieSyms_eq, tieSymsSwapped]
    exact List.Perm.swap 1 0 _
  have hrel : analyze_stocks envTies tieSyms (Except.ok (tieSymsSwapped.map tieRow)) := by
    unfold analyze_stocks
    rw [hrows, tieSyms_eq]
    simp only [List.map_cons]
    exact ⟨tieSymsSwapped.map tieRow, rfl,
      by
        rw [← List.map_cons, ← List.map_cons, ← tieSyms_eq]
        exact hpermSyms.map tieRow,
      sortedDesc_map_tieRow _⟩
  have hst := hclaim _ (tieSymsSwapped.map tieRow) hrel rfl
  have h0 := hst 0
  rw [hrows, filter_score_zero_map_tieRow, filter_score_zero_map_tieRow] at h0
  have hhead := congrArg (fun l => l.head?) h0
  simp [tieSyms_eq, tieSymsSwapped, tieRow] at hhead

theorem processSymbol_score (env : MarketEnv) (s : Ticker) (r : ScoredStock)
    (h : processSymbol env s = some r) : r.score = App.score_stock r.facts := by
  unfold processSymbol at h
  split at h
  · exact absurd h (by simp)
  · split at h
    · exact absurd h (by simp)
    · split at h
      · exact absurd h (by simp)
      · split at h
        · exact absurd h (by simp)
        · rw [Option.some_inj] at h
          subst h
          rfl

/-- Claim C3, amended: the ranked table `analyze_stocks` produces is sorted
in descending order of score and consists of exactly the successfully
processed rows (each scored by `score_stock`); the relative order of rows
with equal scores is not specified, because the pandas sort is invoked with
its default unstable `kind='quicksort'`. -/
theorem analyze_stocks_sorted_desc (env : MarketEnv) (stock_list : List Ticker)
    (res : Except PdError (List ScoredStock)) (out : List ScoredStock)
    (hrel : analyze_stocks env stock_list res) (hres : res = Except.ok out) :
    SortedDescByScore out ∧
    out.Perm (stock_list.filterMap (processSymbol env)) ∧
    ∀ r ∈ out, r.score = App.score_stock r.facts := by
  subst hres
  unfold analyze_stocks at hrel
  rcases hrows : stock_list.filterMap (processSymbol env) with _ | ⟨a, l⟩
  · rw [hrows] at hrel
    exact absurd hrel (by simp [SortValuesScoreDesc])
  · rw [hrows] at hrel
    obtain ⟨out', hout', hperm, hsorted⟩ := hrel
    rw [Except.ok.injEq] at hout'
    subst hout'
    refine ⟨hsorted, hperm.symm, ?_⟩
    intro r hr
    have hmem : r ∈ stock_list.filterMap (processSymbol env) := by
      rw [hrows]
      exact hperm.mem_iff.mpr hr
    obtain ⟨s, _, hs⟩ := List.mem_filterMap.mp hmem
    exact processSymbol_score env s r hs

/-- Witness for the amended claim C3 on the one-symbol input `[0]` under
`envTies`: the output `[tieRow 0]` is sorted descending, is a permutation of
the processed rows, and its score is `score_stock` of its facts. -/
theorem analyze_stocks_sorted_desc_witness :
    SortedDescByScore [tieRow 0] ∧
    [tieRow 0].Perm ([0].filterMap (processSymbol envTies)) ∧
    ∀ r ∈ [tieRow 0], r.score = App.score_stock r.facts := by
  refine analyze_stocks_sorted_desc envTies [0] (Except.ok [tieRow 0]) [tieRow 0] ?_ rfl
  unfold analyze_stocks
  rw [filterMap_envTies]
  simp only [List.map_cons, List.map_nil]
  exact ⟨[tieRow 0], rfl, List.Perm.refl _, sortedDesc_map_tieRow [0]⟩

/-- An alert event printed by the tracker (src/unnamed/part_000, line 154):
symbol, percentage change from the baseline, baseline price, current price. -/
structure Alert where
  symbol : Ticker
  change_pct : ℚ
  baseline_price : ℚ
  price : ℚ
deriving DecidableEq

/-- The mutable state of `live_track_and_plot` (src/unnamed/part_000,
lines 107-109): `initial_prices` and `price_history` are dictionaries keyed
by the tracked symbols, modelled as lists aligned with `syms`; `timestamps`
keeps only the tick stamps (their string content is irrelevant). History
entries are `Option ℚ` because a Python list could in principle hold `None`;
the no-gap theorem for claim C7 shows the code never puts one there. -/
structure TrackerState where
  syms : List Ticker
  initial_prices : List ℚ
  price_history : List (List (Option ℚ))
  timestamps : List Nat
deriving DecidableEq

/-- The initial-price fetch of one symbol (src/unnamed/part_000,
lines 112-116): on a failed lookup a warning is printed and `0` is used. -/
def initPrice (fetch0 : Ticker → Option ℚ) (s : Ticker) : ℚ :=
  match fetch0 s with
  | none => 0
  | some p => p

/-- The INITIALIZING phase (src/unnamed/part_000, lines 107-118): for each
symbol the current price (or the `0` fallback) becomes both the baseline and
the sole entry of its history; note that no timestamp is recorded here. -/
def trackerInit (syms : List Ticker) (fetch0 : Ticker → Option ℚ) : TrackerState :=
  ⟨syms, syms.map (initPrice fetch0),
    syms.map (fun s => [some (initPrice fetch0 s)]), []⟩

/-- The price appended on a polling tick (src/unnamed/part_000,
lines 144-147): the fetched price, or on failure the last history entry
(`0` if the history were empty). -/
def carriedPrice (h : List (Option ℚ)) (fetched : Option ℚ) : Option ℚ :=
  match fetched with
  | some p => some p
  | none => h.getLastD (some 0)

/-- The alert block of one symbol on one tick (src/unnamed/part_000,
lines 150-154): only when the baseline is positive is the percentage change
computed, and an alert is printed exactly when its absolute value reaches
the threshold. The `none` price branch is unreachable on the states the
tracker actually reaches (`tracker_no_gaps_and_carry`); in Python it would
be a `TypeError`, and the model makes it emit nothing. -/
def symAlerts (threshold : ℚ) (s : Ticker) (b : ℚ) (price : Option ℚ) : List Alert :=
  if 0 < b then
    match price with
    | some p =>
      if threshold ≤ |(p - b) / b * 100| then [⟨s, (p - b) / b * 100, b, p⟩] else []
    | none => []
  else []

/-- One completed POLLING tick of `update` (src/unnamed/part_000,
lines 135-161), after the deadline check: append one timestamp, then for
each symbol append the (possibly carried-forward) price and run the alert
block. The tick on which the deadline is detected performs none of this. -/
def trackerTick (threshold : ℚ) (t : Nat) (fetch : Ticker → Option ℚ)
    (st : TrackerState) : TrackerState × List Alert :=
  let timestamps := st.timestamps ++ [t]
  let price_history :=
    List.zipWith (fun s h => h ++ [carriedPrice h (fetch s)]) st.syms st.price_history
  let alerts :=
    (List.zipWith (fun (p : Ticker × ℚ) h => symAlerts threshold p.1 p.2 (carriedPrice h (fetch p.1)))
      (st.syms.zip st.initial_prices) st.price_history).flatten
  (⟨st.syms, st.initial_prices, price_history, timestamps⟩, alerts)

/-- A whole tracking session: the initial state evolved through a list of
completed ticks, each with its stamp and its per-symbol fetch outcomes. -/
def trackerRun (threshold : ℚ) (st : TrackerState) :
    List (Nat × (Ticker → Option ℚ)) → TrackerState
  | [] => st
  | (t, f) :: rest => trackerRun threshold (trackerTick threshold t f st).1 rest

/-- Every tracked history is non-empty and contains no `None` entry. -/
def NoGaps (st : TrackerState) : Prop :=
  ∀ h ∈ st.price_history, h ≠ [] ∧ ∀ x ∈ h, x.isSome

theorem mem_zipWith {α β γ : Type} {f : α → β → γ} :
    ∀ {as : List α} {bs : List β} {c : γ}, c ∈ List.zipWith f as bs →
      ∃ a b, a ∈ as ∧ b ∈ bs ∧ c = f a b := by
  intro as
  induction as with
  | nil => intro bs c h; simp at h
  | cons a as ih =>
    intro bs c h
    cases bs with
    | nil => simp at h
    | cons b bs =>
      simp only [List.zipWith_cons_cons, List.mem_cons] at h
      rcases h with h | h
      · exact ⟨a, b, by simp, by simp, h⟩
      · obtain ⟨a', b', ha, hb, hc⟩ := ih h
        exact ⟨a', b', by simp [ha], by simp [hb], hc⟩

theorem getElem?_zipWith {α β γ : Type} (f : α → β → γ) :
    ∀ (as : List α) (bs : List β) (i : Nat) (a : α) (b : β),
      as[i]? = some a → bs[i]? = some b →
      (List.zipWith f as bs)[i]? = some (f a b) := by
  intro as
  induction as with
  | nil => intro bs i a b ha; simp at ha
  | cons x as ih =>
    intro bs i a b ha hb
    cases bs with
    | nil => simp at hb
    | cons y bs =>
      cases i with
      | zero =>
        simp only [List.getElem?_cons_zero, Option.some_inj] at ha hb
        subst ha; subst hb
        simp
      | succ i =>
        simp only [List.getElem?_cons_succ] at ha hb ⊢
        simp only [List.zipWith_cons_cons, List.getElem?_cons_succ]
        exact ih bs i a b ha hb

theorem mem_of_getElem_opt {α : Type} :
    ∀ {l : List α} {i : Nat} {a : α}, l[i]? = some a → a ∈ l := by
  intro l
  induction l with
  | nil => intro i a h; simp at h
  | cons x l ih =>
    intro i a h
    cases i with
    | zero =>
      simp only [List.getElem?_cons_zero, Option.some_inj] at h
      subst h
      simp
    | succ i =>
      simp only [List.getElem?_cons_succ] at h
      exact List.mem_cons_of_mem _ (ih h)

theorem mem_of_getLast_opt {α : Type} {l : List α} {a : α}
    (h : l.getLast? = some a) : a ∈ l := by
  obtain ⟨hne, rfl⟩ := List.mem_getLast?_eq_getLast (Option.mem_def.mpr h)
  exact List.getLast_mem hne

theorem getLastD_isSome {h : List (Option ℚ)} (hall : ∀ x ∈ h, x.isSome) :
    (h.getLastD (some 0)).isSome := by
  rw [List.getLastD_eq_getLast?]
  cases hh : h.getLast? with
  | none => rfl
  | some x =>
    have hx : x ∈ h := mem_of_getLast_opt hh
    simpa using hall x hx

theorem carriedPrice_isSome {h : List (Option ℚ)} (hall : ∀ x ∈ h, x.isSome)
    (fetched : Option ℚ) : (carriedPrice h fetched).isSome := by
  cases fetched with
  | some p => rfl
  | none => exact getLastD_isSome hall

theorem noGaps_init (syms : List Ticker) (fetch0 : Ticker → Option ℚ) :
    NoGaps (trackerInit syms fetch0) := by
  intro h hmem
  simp only [trackerInit] at hmem
  obtain ⟨s, _, rfl⟩ := List.mem_map.mp hmem
  refine ⟨by simp, ?_⟩
  intro x hx
  rw [List.mem_singleton] at hx
  subst hx
  rfl

theorem noGaps_tick (threshold : ℚ) (t : Nat) (f : Ticker → Option ℚ)
    (st : TrackerState) (hst : NoGaps st) :
    NoGaps (trackerTick threshold t f st).1 := by
  intro h hmem
  simp only [trackerTick] at hmem
  obtain ⟨s, h0, _, hh0, rfl⟩ := mem_zipWith hmem
  obtain ⟨hne, hall⟩ := hst h0 hh0
  refine ⟨by simp, ?_⟩
  intro x hx
  rcases List.mem_append.mp hx with hx | hx
  · exact hall x hx
  · rw [List.mem_singleton] at hx
    subst hx
    exact carriedPrice_isSome hall _

theorem noGaps_run (threshold : ℚ) :
    ∀ (ticks : List (Nat × (Ticker → Option ℚ))) (st : TrackerState),
      NoGaps st → NoGaps (trackerRun threshold st ticks) := by
  intro ticks
  induction ticks with
  | nil => intro st hst; exact hst
  | cons tf rest ih =>
    intro st hst
    obtain ⟨t, f⟩ := tf
    exact ih _ (noGaps_tick threshold t f st hst)

theorem trackerTick_history_at (threshold : ℚ) (t : Nat) (f : Ticker → Option ℚ)
    (st : TrackerState) (i : Nat) (s : Ticker) (h : List (Option ℚ))
    (hs : st.syms[i]? = some s) (hh : st.price_history[i]? = some h) :
    (trackerTick threshold t f st).1.price_history[i]? =
      some (h ++ [carriedPrice h (f s)]) := by
  simp only [trackerTick]
  exact getElem?_zipWith _ st.syms st.price_history i s h hs hh

/-- Claim C7: in every reachable state of the tracker (initialization
followed by any sequence of completed polling ticks with arbitrary fetch
outcomes), every symbol's history is non-empty and contains no `None`; and
on a tick whose fetch fails for a symbol, the price appended to that
symbol's history is exactly its last known (hence non-`None`) price. -/
theorem tracker_no_gaps_and_carry (threshold : ℚ) (syms : List Ticker)
    (fetch0 : Ticker → Option ℚ) (ticks : List (Nat × (Ticker → Option ℚ)))
    (t : Nat) (f : Ticker → Option ℚ) (i : Nat) (s : Ticker) (h : List (Option ℚ))
    (hs : (trackerRun threshold (trackerInit syms fetch0) ticks).syms[i]? = some s)
    (hh : (trackerRun threshold (trackerInit syms fetch0) ticks).price_history[i]? = some h)
    (hf : f s = none) :
    NoGaps (trackerRun threshold (trackerInit syms fetch0) ticks) ∧
    ∃ lastKnown, h.getLast? = some lastKnown ∧ lastKnown.isSome = true ∧
      (trackerTick threshold t f
          (trackerRun threshold (trackerInit syms fetch0) ticks)).1.price_history[i]? =
        some (h ++ [lastKnown]) := by
  have hng : NoGaps (trackerRun threshold (trackerInit syms fetch0) ticks) :=
    noGaps_run threshold ticks _ (noGaps_init syms fetch0)
  refine ⟨hng, ?_⟩
  have hmem : h ∈ (trackerRun threshold (trackerInit syms fetch0) ticks).price_history :=
    mem_of_getElem_opt hh
  obtain ⟨hne, hall⟩ := hng h hmem
  obtain ⟨lastKnown, hlast⟩ := Option.ne_none_iff_exists'.mp
    (mt List.getLast?_eq_none_iff.mp hne)
  refine ⟨lastKnown, hlast, hall lastKnown (mem_of_getLast_opt hlast), ?_⟩
  have := trackerTick_history_at threshold t f _ i s h hs hh
  rw [this]
  have hcp : carriedPrice h (f s) = lastKnown := by
    rw [hf]
    simp only [carriedPrice, List.getLastD_eq_getLast?, hlast, Option.getD_some]
  rw [hcp]

/-- Witness for claim C7: one symbol, a successful initial fetch at price
100, one successful tick at 101, then a tick whose fetch fails: the carried
price is the last known `101`. -/
theorem tracker_no_gaps_and_carry_witness :
    NoGaps (trackerRun 1 (trackerInit [0] (fun _ => some 100))
      [(0, fun _ => some 101)]) ∧
    ∃ lastKnown, [some (100 : ℚ), some 101].getLast? = some lastKnown ∧
      lastKnown.isSome = true ∧
      (trackerTick 1 1 (fun _ => none)
          (trackerRun 1 (trackerInit [0] (fun _ => some 100))
            [(0, fun _ => some 101)])).1.price_history[0]? =
        some ([some (100 : ℚ), some 101] ++ [lastKnown]) :=
  tracker_no_gaps_and_carry 1 [0] (fun _ => some 100) [(0, fun _ => some 101)]
    1 (fun _ => none) 0 0 [some 100, some 101] rfl rfl rfl

/-- A one-symbol session whose initial fetch succeeds at price 100. -/
def oneSymInit : TrackerState := trackerInit [0] (fun _ => some 100)

/-- The same session after one completed, fully successful tick at 101. -/
def oneSymAfterTick : TrackerState := (trackerTick 1 1 (fun _ => some 101) oneSymInit).1

/-- Claim C1 (code bug): the histories and the timestamp sequence are NOT
kept the same length. Initialization appends the first price to every
history but appends no timestamp, so immediately after initialization
(N = 0 ticks) the history has 1 entry and `timestamps` has 0, and after one
fully successful tick (N = 1) the history has 2 entries while `timestamps`
has 1 — not the N + 1 the claim requires of both. -/
theorem tracker_history_timestamp_mismatch :
    oneSymInit.price_history.map List.length = [1] ∧
    oneSymInit.timestamps.length = 0 ∧
    oneSymInit.timestamps.length ≠ 1 ∧
    oneSymAfterTick.price_history.map List.length = [2] ∧
    oneSymAfterTick.timestamps.length = 1 ∧
    oneSymAfterTick.timestamps.length ≠ 2 :=
  ⟨rfl, rfl, by decide, rfl, rfl, by decide⟩

/-- Claim C6: on a polling tick the percentage change of a symbol is
computed only for a positive baseline and an alert is emitted exactly when
its absolute value reaches the threshold; concretely, with baseline 100 and
threshold 1.0, a tick price of 98 yields `change_pct = -2` and an alert,
while a tick price of 100.5 yields `change_pct = 0.5` and no alert. -/
theorem tracker_alert_iff_threshold :
    (∀ (threshold b p : ℚ) (s : Ticker),
      symAlerts threshold s b (some p) =
        if 0 < b ∧ threshold ≤ |(p - b) / b * 100| then
          [⟨s, (p - b) / b * 100, b, p⟩] else []) ∧
    (trackerTick 1 1 (fun _ => some 98) oneSymInit).2 = [⟨0, -2, 100, 98⟩] ∧
    (trackerTick 1 1 (fun _ => some 100.5) oneSymInit).2 = [] := by
  refine ⟨?_, ?_, ?_⟩
  · intro threshold b p s
    simp only [symAlerts]
    split_ifs <;> first | rfl | tauto
  · norm_num [trackerTick, oneSymInit, trackerInit, initPrice, carriedPrice,
      symAlerts, abs]
  · norm_num [trackerTick, oneSymInit, trackerInit, initPrice, carriedPrice,
      symAlerts, abs]
